import Mathlib

/-!
Shallow embedding of the `Log` singleton logger (src/Log.cpp).

State: severity threshold, log-file path, diagnostic call stack
(a `std::vector<std::string>` used as a LIFO stack, `push_back` at the end),
an initialised flag standing for the open file handle, and the trace of
lines emitted through `Log::write` (console and file receive the same
content, so one trace models both sinks).
-/

set_option autoImplicit false

/-- Modelled from the spec: the enumeration `Log::Type` is declared in
`Log.h`, which is not among the repository sources. The spec orders it
most severe first — FATAL, ERROR, WARN, INFO, DEBUG — with lower ordinal
meaning more severe. -/
inductive LogType : Type
  | FATAL
  | ERROR
  | WARN
  | INFO
  | DEBUG
deriving DecidableEq, Repr

/-- The C++ enum ordinal of a `LogType`, used by the `type <= m_threshold`
and `type <= ERROR` comparisons in `Log::log` (Log.cpp lines 95 and 102). -/
def LogType.ordinal : LogType → Nat
  | .FATAL => 0
  | .ERROR => 1
  | .WARN => 2
  | .INFO => 3
  | .DEBUG => 4

/-- The logger's state: the data members of class `Log`, plus `output`,
the sequence of lines handed to `Log::write` (in order of emission). -/
structure LogState : Type where
  m_threshold : LogType
  m_fileName : String
  m_stack : List String
  m_initialised : Bool
  output : List String
deriving DecidableEq, Repr

/-- The state built by the constructor `Log::Log()` (Log.cpp lines 8–13):
threshold INFO, empty file name, empty stack. Modelled from the spec:
`m_initialised` is a member of `Log.h` (absent from the sources); the spec's
state machine starts every logger in the `Uninitialized` state, so it is
`false` here. -/
def Log.initialState : LogState :=
  { m_threshold := .INFO
    m_fileName := ""
    m_stack := []
    m_initialised := false
    output := [] }

/-- `Log::write` (Log.cpp lines 73–76): unconditionally sends the message,
line-terminated, to the console and the file stream. Both sinks receive
identical content, recorded as one appended line of `output`. -/
def Log.write (s : LogState) (message : String) : LogState :=
  { s with output := s.output ++ [message] }

/-- `Log::log` (Log.cpp lines 94–112): if `type <= m_threshold`, writes the
message behind the literal prefix `"[ TIME ] "` and, if `type <= ERROR`,
dumps `m_stack` from `rbegin()` to `rend()` (most recently pushed first)
between the two banner lines, returning true; otherwise returns false. -/
def Log.log (s : LogState) (type : LogType) (message : String) : Bool × LogState :=
  if type.ordinal ≤ s.m_threshold.ordinal then
    let pre : String := "[ TIME ] "
    let s1 := Log.write s (pre ++ message)
    let s2 :=
      if type.ordinal ≤ LogType.ERROR.ordinal then
        let sA := Log.write s1 "====== Stack Trace ======"
        let sB := List.foldl Log.write sA s1.m_stack.reverse
        Log.write sB "========================="
      else s1
    (true, s2)
  else
    (false, s)

/-- `Log::fatal` (Log.cpp lines 120–122). -/
def Log.fatal (s : LogState) (message : String) : Bool × LogState :=
  Log.log s .FATAL message

/-- `Log::error` (Log.cpp lines 140–142). -/
def Log.error (s : LogState) (message : String) : Bool × LogState :=
  Log.log s .ERROR message

/-- `Log::warn` (Log.cpp lines 160–162). -/
def Log.warn (s : LogState) (message : String) : Bool × LogState :=
  Log.log s .WARN message

/-- `Log::info` (Log.cpp lines 180–182). -/
def Log.info (s : LogState) (message : String) : Bool × LogState :=
  Log.log s .INFO message

/-- `Log::debug` (Log.cpp lines 200–202). -/
def Log.debug (s : LogState) (message : String) : Bool × LogState :=
  Log.log s .DEBUG message

/-- `Log::initialise` (Log.cpp lines 47–56): when not yet initialised,
records the file name, opens the stream in append mode (modelled by the
`m_initialised` flag together with `m_fileName`), emits the
"Log initialised" INFO message and returns true; otherwise returns false
without touching the state. -/
def Log.initialise (s : LogState) (fileName : String) : Bool × LogState :=
  if s.m_initialised = false then
    let s1 := { s with m_fileName := fileName, m_initialised := true }
    let s2 := (Log.info s1 "Log initialised").2
    (true, s2)
  else
    (false, s)

/-- `Log::peek` (Log.cpp lines 219–221): `return m_stack.back();`. The
source has no emptiness guard, so `back()` on an empty vector is undefined
behaviour; the total embedding returns `none` on that branch and the top
(last pushed) element otherwise. -/
def Log.peek (s : LogState) : Option String :=
  s.m_stack.getLast?

/-- `Log::push` (Log.cpp lines 229–236): rejects an empty label returning
false; otherwise emits the INFO "BEGIN - " message, appends the label at
the back of `m_stack`, and returns true. -/
def Log.push (s : LogState) (input : String) : Bool × LogState :=
  if input ≠ "" then
    let s1 := (Log.info s ("BEGIN - " ++ input)).2
    let s2 := { s1 with m_stack := s1.m_stack ++ [input] }
    (true, s2)
  else
    (false, s)

/-- `Log::pop` (Log.cpp lines 253–261): on a non-empty stack, reads the top
via `peek`, removes it, emits the INFO "END - " message and returns it; on
an empty stack returns the empty string and leaves the state alone. The
`getD ""` never fires: the guard makes `peek` return `some`. -/
def Log.pop (s : LogState) : String × LogState :=
  if s.m_stack ≠ [] then
    let temp := (Log.peek s).getD ""
    let s1 := { s with m_stack := s.m_stack.dropLast }
    let s2 := (Log.info s1 ("END - " ++ temp)).2
    (temp, s2)
  else
    ("", s)

/-- A sequence of `Log::push` calls, left to right. -/
def Log.pushAll (s : LogState) (labels : List String) : LogState :=
  List.foldl (fun st l => (Log.push st l).2) s labels

/-- One call of the public interface of class `Log` (the member functions
defined in Log.cpp; `peek` reads the state without modifying it). -/
inductive Op : Type
  | opInitialise (fileName : String)
  | opWrite (message : String)
  | opLog (type : LogType) (message : String)
  | opFatal (message : String)
  | opError (message : String)
  | opWarn (message : String)
  | opInfo (message : String)
  | opDebug (message : String)
  | opPush (label : String)
  | opPop
  | opPeek
deriving DecidableEq, Repr

/-- The state reached by one call of the public interface. -/
def applyOp (s : LogState) : Op → LogState
  | .opInitialise fileName => (Log.initialise s fileName).2
  | .opWrite message => Log.write s message
  | .opLog type message => (Log.log s type message).2
  | .opFatal message => (Log.fatal s message).2
  | .opError message => (Log.error s message).2
  | .opWarn message => (Log.warn s message).2
  | .opInfo message => (Log.info s message).2
  | .opDebug message => (Log.debug s message).2
  | .opPush label => (Log.push s label).2
  | .opPop => (Log.pop s).2
  | .opPeek => s

/-- The state reached from the freshly constructed logger after a sequence
of public calls: exactly the reachable states of the singleton. -/
def run (ops : List Op) : LogState :=
  List.foldl applyOp Log.initialState ops

/-- The state reached from the fresh logger after `push("a")` then
`push("b")` (the spec's stack-dump scenario). -/
def abState : LogState :=
  (Log.push (Log.push Log.initialState "a").2 "b").2

/-- The state reached from the fresh logger after `push("g")`. -/
def gState : LogState :=
  (Log.push Log.initialState "g").2

theorem write_eq (s : LogState) (m : String) :
    Log.write s m = { s with output := s.output ++ [m] } := rfl

theorem foldl_write_eq (l : List String) : ∀ s : LogState,
    List.foldl Log.write s l = { s with output := s.output ++ l } := by
  induction l with
  | nil => intro s; simp
  | cons a l ih =>
    intro s
    rw [List.foldl_cons, ih]
    simp [Log.write]

theorem log_eq (s : LogState) (t : LogType) (m : String) :
    Log.log s t m =
      if t.ordinal ≤ s.m_threshold.ordinal then
        (true, { s with output := s.output ++
          (if t.ordinal ≤ LogType.ERROR.ordinal then
            ["[ TIME ] " ++ m, "====== Stack Trace ======"]
              ++ s.m_stack.reverse ++ ["========================="]
          else ["[ TIME ] " ++ m]) })
      else (false, s) := by
  by_cases h1 : t.ordinal ≤ s.m_threshold.ordinal <;>
    by_cases h2 : t.ordinal ≤ LogType.ERROR.ordinal <;>
    simp [Log.log, h1, h2, write_eq, foldl_write_eq, -List.foldl_reverse]

theorem info_eq (s : LogState) (m : String) :
    Log.info s m =
      if LogType.INFO.ordinal ≤ s.m_threshold.ordinal then
        (true, { s with output := s.output ++ ["[ TIME ] " ++ m] })
      else (false, s) := by
  unfold Log.info
  rw [log_eq]
  norm_num [LogType.ordinal]

theorem push_eq (s : LogState) (input : String) :
    Log.push s input =
      if input ≠ "" then
        (true, { s with m_stack := s.m_stack ++ [input],
                        output := s.output ++
                          (if LogType.INFO.ordinal ≤ s.m_threshold.ordinal then
                            ["[ TIME ] " ++ ("BEGIN - " ++ input)]
                          else []) })
      else (false, s) := by
  unfold Log.push
  by_cases h : input = "" <;>
    by_cases ht : LogType.INFO.ordinal ≤ s.m_threshold.ordinal <;>
    simp [h, ht, info_eq]

theorem pop_eq (s : LogState) :
    Log.pop s =
      if s.m_stack ≠ [] then
        ((s.m_stack.getLast?).getD "",
         { s with m_stack := s.m_stack.dropLast,
                  output := s.output ++
                    (if LogType.INFO.ordinal ≤ s.m_threshold.ordinal then
                      ["[ TIME ] " ++ ("END - " ++ (s.m_stack.getLast?).getD "")]
                    else []) })
      else ("", s) := by
  unfold Log.pop Log.peek
  by_cases h : s.m_stack = [] <;>
    by_cases ht : LogType.INFO.ordinal ≤ s.m_threshold.ordinal <;>
    simp [h, ht, info_eq]

theorem initialise_eq (s : LogState) (fileName : String) :
    Log.initialise s fileName =
      if s.m_initialised = false then
        (true, { s with m_fileName := fileName, m_initialised := true,
                        output := s.output ++
                          (if LogType.INFO.ordinal ≤ s.m_threshold.ordinal then
                            ["[ TIME ] " ++ "Log initialised"]
                          else []) })
      else (false, s) := by
  unfold Log.initialise
  by_cases h : s.m_initialised = false <;>
    by_cases ht : LogType.INFO.ordinal ≤ s.m_threshold.ordinal <;>
    simp [h, ht, info_eq]

theorem log_m_stack (s : LogState) (t : LogType) (m : String) :
    (Log.log s t m).2.m_stack = s.m_stack := by
  rw [log_eq]; split <;> simp

theorem log_m_threshold (s : LogState) (t : LogType) (m : String) :
    (Log.log s t m).2.m_threshold = s.m_threshold := by
  rw [log_eq]; split <;> simp

theorem log_m_fileName (s : LogState) (t : LogType) (m : String) :
    (Log.log s t m).2.m_fileName = s.m_fileName := by
  rw [log_eq]; split <;> simp

theorem log_m_initialised (s : LogState) (t : LogType) (m : String) :
    (Log.log s t m).2.m_initialised = s.m_initialised := by
  rw [log_eq]; split <;> simp

theorem push_m_stack (s : LogState) (input : String) :
    (Log.push s input).2.m_stack =
      if input ≠ "" then s.m_stack ++ [input] else s.m_stack := by
  rw [push_eq]; split <;> simp_all

theorem push_m_threshold (s : LogState) (input : String) :
    (Log.push s input).2.m_threshold = s.m_threshold := by
  rw [push_eq]; split <;> simp

theorem pop_m_stack (s : LogState) :
    (Log.pop s).2.m_stack = s.m_stack.dropLast := by
  rw [pop_eq]; split <;> simp_all

theorem pop_m_threshold (s : LogState) :
    (Log.pop s).2.m_threshold = s.m_threshold := by
  rw [pop_eq]; split <;> simp

theorem initialise_m_stack (s : LogState) (p : String) :
    (Log.initialise s p).2.m_stack = s.m_stack := by
  rw [initialise_eq]; split <;> simp

theorem initialise_m_threshold (s : LogState) (p : String) :
    (Log.initialise s p).2.m_threshold = s.m_threshold := by
  rw [initialise_eq]; split <;> simp

theorem initialise_m_initialised (s : LogState) (p : String) :
    (Log.initialise s p).2.m_initialised = true ∨ (Log.initialise s p).2 = s := by
  rw [initialise_eq]
  split
  · left; simp
  · right; rfl

theorem applyOp_m_threshold (s : LogState) (op : Op) :
    (applyOp s op).m_threshold = s.m_threshold := by
  cases op <;>
    simp [applyOp, Log.fatal, Log.error, Log.warn, Log.info, Log.debug, Log.write,
      log_m_threshold, push_m_threshold, pop_m_threshold, initialise_m_threshold]

theorem foldl_applyOp_m_threshold (ops : List Op) : ∀ s : LogState,
    (List.foldl applyOp s ops).m_threshold = s.m_threshold := by
  induction ops with
  | nil => intro s; rfl
  | cons op ops ih => intro s; rw [List.foldl_cons, ih, applyOp_m_threshold]

theorem run_m_threshold (ops : List Op) : (run ops).m_threshold = LogType.INFO :=
  foldl_applyOp_m_threshold ops Log.initialState

theorem applyOp_stack_nonempty (s : LogState) (op : Op)
    (h : ∀ e ∈ s.m_stack, e ≠ "") : ∀ e ∈ (applyOp s op).m_stack, e ≠ "" := by
  cases op with
  | opPush label =>
    intro e he
    rw [show applyOp s (.opPush label) = (Log.push s label).2 from rfl,
      push_m_stack] at he
    by_cases hl : label = ""
    · rw [if_neg (by simp [hl])] at he
      exact h e he
    · rw [if_pos hl] at he
      rcases List.mem_append.mp he with h1 | h1
      · exact h e h1
      · rw [List.mem_singleton.mp h1]; exact hl
  | opPop =>
    intro e he
    rw [show applyOp s .opPop = (Log.pop s).2 from rfl, pop_m_stack] at he
    exact h e (List.mem_of_mem_dropLast he)
  | opInitialise p =>
    intro e he
    rw [show applyOp s (.opInitialise p) = (Log.initialise s p).2 from rfl,
      initialise_m_stack] at he
    exact h e he
  | opWrite m => exact h
  | opLog t m => intro e he; rw [show applyOp s (.opLog t m) = (Log.log s t m).2 from rfl, log_m_stack] at he; exact h e he
  | opFatal m => intro e he; rw [show applyOp s (.opFatal m) = (Log.log s .FATAL m).2 from rfl, log_m_stack] at he; exact h e he
  | opError m => intro e he; rw [show applyOp s (.opError m) = (Log.log s .ERROR m).2 from rfl, log_m_stack] at he; exact h e he
  | opWarn m => intro e he; rw [show applyOp s (.opWarn m) = (Log.log s .WARN m).2 from rfl, log_m_stack] at he; exact h e he
  | opInfo m => intro e he; rw [show applyOp s (.opInfo m) = (Log.log s .INFO m).2 from rfl, log_m_stack] at he; exact h e he
  | opDebug m => intro e he; rw [show applyOp s (.opDebug m) = (Log.log s .DEBUG m).2 from rfl, log_m_stack] at he; exact h e he
  | opPeek => exact h

theorem foldl_applyOp_stack_nonempty (ops : List Op) : ∀ s : LogState,
    (∀ e ∈ s.m_stack, e ≠ "") →
    ∀ e ∈ (List.foldl applyOp s ops).m_stack, e ≠ "" := by
  induction ops with
  | nil => intro s h; exact h
  | cons op ops ih =>
    intro s h
    rw [List.foldl_cons]
    exact ih (applyOp s op) (applyOp_stack_nonempty s op h)

theorem run_stack_nonempty (ops : List Op) :
    ∀ e ∈ (run ops).m_stack, e ≠ "" :=
  foldl_applyOp_stack_nonempty ops Log.initialState (by simp [Log.initialState])

theorem pushAll_m_stack (labels : List String) : ∀ s : LogState,
    (∀ l ∈ labels, l ≠ "") →
    (Log.pushAll s labels).m_stack = s.m_stack ++ labels := by
  induction labels with
  | nil => intro s _; simp [Log.pushAll]
  | cons a l ih =>
    intro s h
    have ha : a ≠ "" := h a (List.mem_cons_self a l)
    show (Log.pushAll (Log.push s a).2 l).m_stack = s.m_stack ++ (a :: l)
    rw [ih (Log.push s a).2 (fun x hx => h x (List.mem_cons_of_mem a hx)),
      push_m_stack, if_pos ha]
    simp

/-- Claim C1: `Log::log` returns true exactly when the message's level is
at or above the threshold (ordinal ≤ threshold ordinal); below the
threshold it returns false and the whole logger state — output, call
stack, threshold, file path — is unchanged; at or above it, output is
emitted (the trace strictly grows). -/
theorem log_threshold_gate (s : LogState) (L : LogType) (m : String) :
    ((Log.log s L m).1 = true ↔ L.ordinal ≤ s.m_threshold.ordinal)
    ∧ (¬ L.ordinal ≤ s.m_threshold.ordinal → Log.log s L m = (false, s))
    ∧ (L.ordinal ≤ s.m_threshold.ordinal →
        s.output.length < (Log.log s L m).2.output.length) := by
  refine ⟨?_, ?_, ?_⟩
  · rw [log_eq]; split <;> simp_all
  · intro h; rw [log_eq, if_neg h]
  · intro h
    rw [log_eq, if_pos h]
    split <;> simp

/-- Witness for C1 on the fresh logger: `log(DEBUG, "x")` is filtered and a
complete no-op, `log(INFO, "x")` emits. -/
theorem log_threshold_gate_witness :
    Log.log Log.initialState .DEBUG "x" = (false, Log.initialState)
    ∧ Log.initialState.output.length <
        (Log.log Log.initialState .INFO "x").2.output.length :=
  ⟨(log_threshold_gate Log.initialState .DEBUG "x").2.1 (by decide),
   (log_threshold_gate Log.initialState .INFO "x").2.2 (by decide)⟩

/-- Claim C2, the code-bug record: on the fresh logger (threshold INFO),
`log(INFO, "boom")` returns true and the single emitted line is exactly
`"[ TIME ] boom"` — the prefix is the constant placeholder built at
Log.cpp line 96; no actual timestamp and no level name appear, although
the function's own doc comment (Log.cpp lines 87–93) promises a timestamp
and a category prefix. -/
theorem log_literal_time_placeholder :
    (Log.log Log.initialState .INFO "boom").1 = true
    ∧ (Log.log Log.initialState .INFO "boom").2.output = ["[ TIME ] boom"] := by
  constructor
  · rfl
  · decide

/-- Claim C3: for a level at or above the threshold that is ERROR or more
severe, `Log::log` writes the formatted message line and then the whole
call stack, most recently pushed entry first (`m_stack` reversed), framed
by the fixed opening and closing banner lines, and returns true. -/
theorem log_error_stack_dump (s : LogState) (L : LogType) (m : String)
    (hT : L.ordinal ≤ s.m_threshold.ordinal)
    (hE : L.ordinal ≤ LogType.ERROR.ordinal) :
    (Log.log s L m).1 = true
    ∧ (Log.log s L m).2.output =
        s.output ++ ["[ TIME ] " ++ m, "====== Stack Trace ======"]
          ++ s.m_stack.reverse ++ ["========================="] := by
  rw [log_eq, if_pos hT, if_pos hE]
  exact ⟨rfl, by simp⟩

/-- Witness for C3, the spec's scenario: after `push("a")` then
`push("b")`, `log(ERROR, "boom")` dumps `"b"` before `"a"` between the two
banners. -/
theorem log_error_stack_dump_witness :
    (Log.log abState .ERROR "boom").1 = true
    ∧ (Log.log abState .ERROR "boom").2.output =
        abState.output ++ ["[ TIME ] boom", "====== Stack Trace ======",
          "b", "a", "========================="] := by
  have h := log_error_stack_dump abState .ERROR "boom" (by decide) (by decide)
  exact ⟨h.1, h.2.trans (by decide)⟩

/-- Claim C4: `Log::peek` reads the most recently pushed label of a
non-empty stack without modifying the state (in the embedding it is a pure
function of the state): after pushing the non-empty labels `labels` the
top is the last one, and after one `pop` it is the last of
`labels.dropLast`; on an empty stack the unguarded `m_stack.back()` has no
value, so the total embedding's `none` branch is reachable. -/
theorem peek_spec (s : LogState) (labels : List String)
    (hne : ∀ l ∈ labels, l ≠ "") (h0 : labels ≠ []) :
    Log.peek (Log.pushAll s labels) = some (labels.getLast h0)
    ∧ (Log.pushAll s labels).m_stack = s.m_stack ++ labels
    ∧ (labels.dropLast ≠ [] →
        Log.peek (Log.pop (Log.pushAll s labels)).2 = labels.dropLast.getLast?)
    ∧ (s.m_stack = [] → Log.peek s = none) := by
  have hst := pushAll_m_stack labels s hne
  refine ⟨?_, hst, ?_, ?_⟩
  · unfold Log.peek
    rw [hst, List.getLast?_append_of_ne_nil _ h0, List.getLast?_eq_getLast labels h0]
  · intro h2
    unfold Log.peek
    rw [pop_m_stack, hst, List.dropLast_append_of_ne_nil _ h0,
      List.getLast?_append_of_ne_nil _ h2]
  · intro h; unfold Log.peek; rw [h]; rfl

/-- Witness for C4 with two pushes on the fresh logger: `peek` sees `"b"`,
after one `pop` it sees `"a"`, and on the fresh (empty-stack) logger it
has no value. -/
theorem peek_spec_witness :
    Log.peek (Log.pushAll Log.initialState ["a", "b"]) = some "b"
    ∧ Log.peek (Log.pop (Log.pushAll Log.initialState ["a", "b"])).2 = some "a"
    ∧ Log.peek Log.initialState = none := by
  have h := peek_spec Log.initialState ["a", "b"] (by decide) (by decide)
  refine ⟨h.1.trans (by decide), ?_, h.2.2.2 rfl⟩
  exact (h.2.2.1 (by decide)).trans (by decide)

/-- Claim C5, the push/pop round-trip law: for every state and non-empty
label, `push(f)` immediately followed by `pop()` returns `f` and leaves
the call stack exactly as it was before the push. -/
theorem push_pop_roundtrip (s : LogState) (f : String) (h : f ≠ "") :
    (Log.pop (Log.push s f).2).1 = f
    ∧ (Log.pop (Log.push s f).2).2.m_stack = s.m_stack := by
  have hst : (Log.push s f).2.m_stack = s.m_stack ++ [f] := by
    rw [push_m_stack, if_pos h]
  constructor
  · rw [pop_eq, if_pos (by rw [hst]; simp)]
    simp [hst]
  · rw [pop_m_stack, hst, List.dropLast_concat]

/-- Witness for C5 on the fresh logger with label `"f"`. -/
theorem push_pop_roundtrip_witness :
    (Log.pop (Log.push Log.initialState "f").2).1 = "f"
    ∧ (Log.pop (Log.push Log.initialState "f").2).2.m_stack =
        Log.initialState.m_stack :=
  push_pop_roundtrip Log.initialState "f" (by decide)

/-- Claim C6: `push("")` returns false and changes nothing; for a
non-empty label, `push` emits the INFO "BEGIN" line (whenever INFO passes
the threshold, as it always does in the reachable states), appends the
label to the call stack, and returns true. -/
theorem push_spec (s : LogState) (label : String) :
    (label = "" → Log.push s label = (false, s))
    ∧ (label ≠ "" →
        (Log.push s label).1 = true
        ∧ (Log.push s label).2.m_stack = s.m_stack ++ [label]
        ∧ (LogType.INFO.ordinal ≤ s.m_threshold.ordinal →
            (Log.push s label).2.output =
              s.output ++ ["[ TIME ] " ++ ("BEGIN - " ++ label)])) := by
  constructor
  · intro h; rw [push_eq, if_neg (by simp [h])]
  · intro h
    rw [push_eq, if_pos h]
    refine ⟨rfl, by simp, ?_⟩
    intro ht
    simp [ht]

/-- Witness for C6 on the fresh logger: the empty label is rejected with
no state change; `push("g")` appends and emits the BEGIN line. -/
theorem push_spec_witness :
    Log.push Log.initialState "" = (false, Log.initialState)
    ∧ (Log.push Log.initialState "g").1 = true
    ∧ (Log.push Log.initialState "g").2.m_stack = ["g"]
    ∧ (Log.push Log.initialState "g").2.output = ["[ TIME ] BEGIN - g"] := by
  have h := push_spec Log.initialState "g"
  have hg := h.2 (by decide)
  refine ⟨(push_spec Log.initialState "").1 rfl, hg.1,
    hg.2.1.trans (by decide), (hg.2.2 (by decide)).trans (by decide)⟩

/-- Claim C7: the first `initialise` call records the path, opens the file
(the initialised flag), and returns true; any call on an already
initialised logger — whatever the path — returns false and changes
nothing, so the path and handle in use stay those of the first call. -/
theorem initialise_once (s : LogState) (p q : String) :
    (s.m_initialised = false →
        (Log.initialise s p).1 = true
        ∧ (Log.initialise s p).2.m_fileName = p
        ∧ (Log.initialise s p).2.m_initialised = true)
    ∧ (s.m_initialised = true → Log.initialise s p = (false, s))
    ∧ (Log.initialise (Log.initialise s p).2 q).1 = false
    ∧ (Log.initialise (Log.initialise s p).2 q).2 = (Log.initialise s p).2 := by
  have hpost : (Log.initialise s p).2.m_initialised = true := by
    rw [initialise_eq]
    split
    · simp
    · next h => simpa using h
  refine ⟨?_, ?_, ?_, ?_⟩
  · intro h
    rw [initialise_eq, if_pos h]
    exact ⟨rfl, by simp, by simp⟩
  · intro h
    rw [initialise_eq, if_neg (by simp [h])]
  · rw [initialise_eq (Log.initialise s p).2 q, if_neg (by simp [hpost])]
  · rw [initialise_eq (Log.initialise s p).2 q, if_neg (by simp [hpost])]

/-- Witness for C7: initialising the fresh logger with `"log.txt"`
succeeds and records the path; a second call with `"other.txt"` returns
false and the path in use is still `"log.txt"`. -/
theorem initialise_once_witness :
    (Log.initialise Log.initialState "log.txt").1 = true
    ∧ (Log.initialise Log.initialState "log.txt").2.m_fileName = "log.txt"
    ∧ (Log.initialise (Log.initialise Log.initialState "log.txt").2
        "other.txt").1 = false
    ∧ (Log.initialise (Log.initialise Log.initialState "log.txt").2
        "other.txt").2.m_fileName = "log.txt" := by
  have h := initialise_once Log.initialState "log.txt" "other.txt"
  have h1 := h.1 rfl
  refine ⟨h1.1, h1.2.1, h.2.2.1, ?_⟩
  rw [h.2.2.2, h1.2.1]

/-- Claim C8: `pop` on a non-empty stack removes and returns the top
label, emitting the INFO "END" line (whenever INFO passes the threshold);
on the empty stack it returns the empty string with no state change and
nothing emitted. -/
theorem pop_spec (s : LogState) :
    (s.m_stack = [] → Log.pop s = ("", s))
    ∧ (∀ stk x, s.m_stack = stk ++ [x] →
        (Log.pop s).1 = x
        ∧ (Log.pop s).2.m_stack = stk
        ∧ (LogType.INFO.ordinal ≤ s.m_threshold.ordinal →
            (Log.pop s).2.output =
              s.output ++ ["[ TIME ] " ++ ("END - " ++ x)])) := by
  constructor
  · intro h; rw [pop_eq, if_neg (by simp [h])]
  · intro stk x h
    have hne : s.m_stack ≠ [] := by rw [h]; simp
    have hlast : s.m_stack.getLast? = some x := by rw [h]; exact List.getLast?_concat _
    refine ⟨?_, ?_, ?_⟩
    · rw [pop_eq, if_pos hne]
      simp [hlast]
    · rw [pop_m_stack, h, List.dropLast_concat]
    · intro ht
      rw [pop_eq, if_pos hne]
      simp [hlast, ht]

/-- Witness for C8: popping the fresh logger's empty stack is a no-op
returning `""`; popping after `push("g")` returns `"g"`, empties the
stack, and emits the END line. -/
theorem pop_spec_witness :
    Log.pop Log.initialState = ("", Log.initialState)
    ∧ (Log.pop gState).1 = "g"
    ∧ (Log.pop gState).2.m_stack = []
    ∧ (Log.pop gState).2.output = gState.output ++ ["[ TIME ] END - g"] := by
  have h := (pop_spec gState).2 [] "g" (by decide)
  refine ⟨(pop_spec Log.initialState).1 rfl, h.1, h.2.1, ?_⟩
  exact (h.2.2 (by decide)).trans (by decide)

/-- Claim C9, the implicit invariant: every entry of the call stack of a
reachable state is non-empty, each public operation preserves the
property, and consequently, under it, `pop` returning `""` happens exactly
on the empty stack — the spec's "latent ambiguity" cannot arise through
the public interface. -/
theorem stack_entries_nonempty (ops : List Op) (s : LogState) (op : Op) :
    (∀ e ∈ (run ops).m_stack, e ≠ "")
    ∧ ((∀ e ∈ s.m_stack, e ≠ "") → ∀ e ∈ (applyOp s op).m_stack, e ≠ "")
    ∧ ((∀ e ∈ s.m_stack, e ≠ "") → ((Log.pop s).1 = "" ↔ s.m_stack = [])) := by
  refine ⟨run_stack_nonempty ops, applyOp_stack_nonempty s op, ?_⟩
  intro h
  constructor
  · intro hp
    by_contra hne
    have hlast := List.getLast?_eq_getLast s.m_stack hne
    have hmem := List.getLast_mem hne
    rw [pop_eq, if_pos hne] at hp
    simp [hlast] at hp
    exact h _ hmem hp
  · intro hnil
    rw [pop_eq, if_neg (by simp [hnil])]

/-- Witness for C9 on a concrete trace and on the one-entry state reached
by `push("g")`: every stacked label is non-empty and `pop` there does not
return `""`. -/
theorem stack_entries_nonempty_witness :
    (∀ e ∈ (run [Op.opPush "a", Op.opPop, Op.opPush "b"]).m_stack, e ≠ "")
    ∧ (∀ e ∈ (applyOp gState (Op.opPush "c")).m_stack, e ≠ "")
    ∧ ((Log.pop gState).1 = "" ↔ gState.m_stack = []) := by
  have h := stack_entries_nonempty [Op.opPush "a", Op.opPop, Op.opPush "b"]
    gState (Op.opPush "c")
  exact ⟨h.1, h.2.1 (by decide), h.2.2 (by decide)⟩

/-- Claim C10, implicit: the constructor fixes the threshold at INFO and
no operation of the source changes it, so in every reachable state
`debug(m)` returns false and is a complete no-op (DEBUG is strictly less
severe than INFO), and a WARN threshold is unreachable. -/
theorem threshold_fixed_debug_noop (ops : List Op) (m : String) :
    (run ops).m_threshold = LogType.INFO
    ∧ Log.debug (run ops) m = (false, run ops) := by
  refine ⟨run_m_threshold ops, ?_⟩
  have hth : ¬ LogType.DEBUG.ordinal ≤ (run ops).m_threshold.ordinal := by
    rw [run_m_threshold ops]; decide
  unfold Log.debug
  rw [log_eq, if_neg hth]
